import Mathlib

/-!
Shallow embedding of `src/router/src/matching/nested/mod.rs`: the nested-route
matching and enumeration engine (`NestedRoute`, `NestedMatch`, `match_nested`,
`generate_routes`, and the `ROUTE_ID` allocator).
-/

/-- Modelled from the spec: a segment descriptor is an opaque value appended by a
matcher's `generate_path`; the `PathSegment` enum itself is external to the core. -/
abbrev PathSegment := String

/-- Modelled from the spec: an opaque regeneration descriptor carried by the
Static SSR-mode variant. -/
abbrev Regen := Nat

/-- Modelled from the spec: `HttpMethod` is an externally defined finite set of
verbs, used only as set elements. -/
inductive Method : Type where
  | get
  | post
  | put
  | delete
  | patch
deriving DecidableEq, Repr

/-- Modelled from the spec: the payload of the Static SSR-mode variant, carrying
an optional regeneration descriptor (the core reads `data.regenerate`). -/
structure StaticRoute : Type where
  regenerate : Option Regen
deriving DecidableEq, Repr

/-- Modelled from the spec: `SsrMode` is an externally defined variant set with an
ordering in which more dynamic strategies compare greater, plus a Static variant
carrying an optional regeneration descriptor. -/
inductive SsrMode : Type where
  | outOfOrder
  | partiallyBlocked
  | inOrder
  | async
  | Static (data : StaticRoute)
deriving DecidableEq, Repr

/-- Modelled from the spec: rank of an `SsrMode` variant in the mode ordering. -/
def SsrMode.rank : SsrMode → Nat
  | .outOfOrder => 0
  | .partiallyBlocked => 1
  | .inOrder => 2
  | .async => 3
  | .Static _ => 4

/-- Modelled from the spec: ordering on the optional regeneration descriptor
(absent compares less than present). -/
def optRegenLt : Option Regen → Option Regen → Bool
  | none, none => false
  | none, some _ => true
  | some _, none => false
  | some a, some b => a < b

/-- Modelled from the spec: the strict mode ordering consumed by the merge;
only the comparison result is used by generation. -/
def SsrMode.ltb : SsrMode → SsrMode → Bool
  | .Static a, .Static b => optRegenLt a.regenerate b.regenerate
  | a, b => a.rank < b.rank

/-- Modelled from the spec: `a > b` on SSR modes, as used by `generate_routes`. -/
def SsrMode.gtb (a b : SsrMode) : Bool := SsrMode.ltb b a

/-- `PartialPathMatch`: result of a segment matcher's `test`, giving the
remaining suffix, extracted params, and matched span. -/
structure PartialPathMatch : Type where
  remaining : String
  params : List (String × String)
  matched : String
deriving DecidableEq, Repr

/-- The segment-matcher capability (`PossibleRouteMatch`): `test` checks a path,
`path` is the list of segment descriptors that `generate_path` appends. -/
structure Matcher : Type where
  test : String → Option PartialPathMatch
  path : List PathSegment

/-- `RouteMatchId(u16)`: identifier of the matched route node. -/
structure RouteMatchId : Type where
  id : Nat
deriving DecidableEq, Repr

mutual

/-- `NestedRoute`: the route-tree node with id, segment matcher, optional child
subtree, opaque data, view selector, methods, and SSR mode. -/
inductive NestedRoute : Type where
  | mk (id : Nat) (segments : Matcher) (children : Option RouteList)
       (data : Nat) (view : Nat) (methods : Finset Method) (ssr_mode : SsrMode)

/-- Modelled from the spec: a child subtree is recursively the same contract as
this core; the tuple implementations (`mod tuples`, not under src) make it a
finite ordered collection of sibling route trees. -/
inductive RouteList : Type where
  | nil : RouteList
  | cons (head : NestedRoute) (tail : RouteList) : RouteList

end

def NestedRoute.id : NestedRoute → Nat
  | .mk i _ _ _ _ _ _ => i

def NestedRoute.segments : NestedRoute → Matcher
  | .mk _ s _ _ _ _ _ => s

def NestedRoute.children : NestedRoute → Option RouteList
  | .mk _ _ c _ _ _ _ => c

def NestedRoute.data : NestedRoute → Nat
  | .mk _ _ _ d _ _ _ => d

def NestedRoute.view : NestedRoute → Nat
  | .mk _ _ _ _ v _ _ => v

def NestedRoute.methods : NestedRoute → Finset Method
  | .mk _ _ _ _ _ m _ => m

def NestedRoute.ssr_mode : NestedRoute → SsrMode
  | .mk _ _ _ _ _ _ s => s

/-- `NestedMatch`: a successful match — this node's id, the portion of the path
matched only by this route, the accumulated params, the nested child match, and
the view selector. -/
inductive NestedMatch : Type where
  | mk (id : RouteMatchId) (matched : String) (params : List (String × String))
       (child : Option NestedMatch) (view_fn : Nat)

def NestedMatch.id : NestedMatch → RouteMatchId
  | .mk i _ _ _ _ => i

def NestedMatch.matched : NestedMatch → String
  | .mk _ m _ _ _ => m

def NestedMatch.params : NestedMatch → List (String × String)
  | .mk _ _ p _ _ => p

def NestedMatch.child : NestedMatch → Option NestedMatch
  | .mk _ _ _ c _ => c

def NestedMatch.view_fn : NestedMatch → Nat
  | .mk _ _ _ _ v => v

/-- `MatchParams::to_params`: a clone of the params matched only by this route. -/
def NestedMatch.to_params (m : NestedMatch) : List (String × String) := m.params

/-- The `let (id, inner) = inner?` step of `match_nested` (mod.rs lines 175-183):
a failing child match aborts the surrounding closure; a successful one passes the
inner match and the child's remaining suffix along (the child's id is dropped). -/
def childStep (res : Option (RouteMatchId × NestedMatch) × String) :
    Option (Option NestedMatch × String) :=
  match res with
  | (none, _) => none
  | (some (_, inner), remaining2) => some (some inner, remaining2)

/-- The tail of the `match_nested` closure (mod.rs lines 184-208): succeed iff
the final remainder is empty or exactly a slash, extending this node's params
with the inner match's `to_params` and recording the inner match as `child`. -/
def matchFinish (i : Nat) (matched : String) (params : List (String × String))
    (view : Nat) (step : Option NestedMatch × String) :
    Option (Option (RouteMatchId × NestedMatch) × String) :=
  if step.2 = "" ∨ step.2 = "/" then
    some (some (RouteMatchId.mk i,
      NestedMatch.mk (RouteMatchId.mk i) matched
        (params ++ (step.1.map NestedMatch.to_params).getD [])
        step.1 view), step.2)
  else
    none

mutual

/-- `match_nested` of `NestedRoute` (mod.rs lines 163-212): test the segment
matcher (`and_then` is `Option.bind`); on failure `unwrap_or` yields
`(none, path)` unchanged; otherwise recurse into the child on the matcher's
remainder and finish with `matchFinish`. -/
def NestedRoute.match_nested : NestedRoute → String →
    Option (RouteMatchId × NestedMatch) × String
  | .mk i segs children _ view _ _, path =>
    ((segs.test path).bind (fun pm =>
      (match children with
       | none => some (none, pm.remaining)
       | some cs => childStep (RouteList.match_nested cs pm.remaining)
      ).bind (matchFinish i pm.matched pm.params view))).getD (none, path)

/-- Modelled from the spec: a tuple of sibling subtrees tries each alternative in
order on the same input (failure leaves the path unconsumed, so the next sibling
is tried with the original input); the first success wins. -/
def RouteList.match_nested : RouteList → String →
    Option (RouteMatchId × NestedMatch) × String
  | .nil, path => (none, path)
  | .cons r rest, path =>
    match NestedRoute.match_nested r path with
    | (some res, remaining) => (some res, remaining)
    | (none, _) => RouteList.match_nested rest path

end

/-- `GeneratedRouteData`: one concrete route produced by enumeration — segment
descriptors, merged SSR mode, merged methods, and regeneration list. -/
structure GeneratedRouteData : Type where
  segments : List PathSegment
  ssr_mode : SsrMode
  methods : Finset Method
  regenerate : List Regen
deriving DecidableEq

/-- The regeneration list derived from an SSR mode in `generate_routes` (mod.rs
lines 222-228): non-empty only for the Static variant carrying a descriptor. -/
def regenOfMode : SsrMode → List Regen
  | .Static data =>
    match data.regenerate with
    | none => []
    | some r => [r]
  | _ => []

/-- The per-child-entry combination closure of `generate_routes` (mod.rs lines
239-268): extend segments, union methods, concatenate regeneration lists, and
keep the child's SSR mode only when it is strictly greater than this node's. -/
def combineEntry (segment_routes : List PathSegment) (methods : Finset Method)
    (ssr_mode : SsrMode) (regenerate : List Regen) (child : GeneratedRouteData) :
    GeneratedRouteData :=
  let segments := segment_routes ++ child.segments
  let methods := methods ∪ child.methods
  let regenerate := regenerate ++ child.regenerate
  if SsrMode.gtb child.ssr_mode ssr_mode then
    ⟨segments, child.ssr_mode, methods, regenerate⟩
  else
    ⟨segments, ssr_mode, methods, regenerate⟩

mutual

/-- `generate_routes` of `NestedRoute` (mod.rs lines 214-272): with no child,
one entry from this node's own descriptors; with a child, one combined entry per
child entry. -/
def NestedRoute.generate_routes : NestedRoute → List GeneratedRouteData
  | .mk _ segs children _ _ methods ssr_mode =>
    let segment_routes := segs.path
    let regenerate := regenOfMode ssr_mode
    match children with
    | none => [⟨segment_routes, ssr_mode, methods, regenerate⟩]
    | some cs =>
      (RouteList.generate_routes cs).map
        (combineEntry segment_routes methods ssr_mode regenerate)

/-- Modelled from the spec: a tuple of sibling subtrees enumerates each sibling
in order and chains the resulting entries (`mod tuples`, not under src). -/
def RouteList.generate_routes : RouteList → List GeneratedRouteData
  | .nil => []
  | .cons r rest => NestedRoute.generate_routes r ++ RouteList.generate_routes rest

end

mutual

/-- Number of leaf descendants of a route node (a childless node is one leaf). -/
def NestedRoute.leafCount : NestedRoute → Nat
  | .mk _ _ children _ _ _ _ =>
    match children with
    | none => 1
    | some cs => RouteList.leafCount cs

/-- Number of leaf descendants of a sibling collection. -/
def RouteList.leafCount : RouteList → Nat
  | .nil => 0
  | .cons r rest => NestedRoute.leafCount r + RouteList.leafCount rest

end

/-- `ROUTE_ID`: the process-wide route-id counter starts at 1. -/
def ROUTE_ID_init : Nat := 1

/-- `fetch_add(1)` on the `AtomicU16` counter: returns the prior value and the
successor, both reduced modulo 2^16 (the counter is a u16 and wraps). -/
def fetchAdd (s : Nat) : Nat × Nat := (s % 65536, (s + 1) % 65536)

/-- `NestedRoute::new` (mod.rs lines 51-64): a leaf node with a fresh id from the
counter, no child, unit data, method set containing only GET, and the default
SSR mode; the counter state is threaded explicitly. -/
def NestedRoute.new (segments : Matcher) (view : Nat) (state : Nat) :
    NestedRoute × Nat :=
  let p := fetchAdd state
  (NestedRoute.mk p.1 segments none 0 view {Method.get} SsrMode.outOfOrder, p.2)

/-- A trivial segment matcher, used only to exercise construction. -/
def trivialMatcher : Matcher := ⟨fun _ => none, []⟩

/-- Construct `m` route nodes in sequence, each calling the allocator once. -/
def constructMany (state : Nat) : Nat → List NestedRoute
  | 0 => []
  | m + 1 =>
    let p := NestedRoute.new trivialMatcher 0 state
    p.1 :: constructMany p.2 m

/-- `NestedRoute::child` (mod.rs lines 68-90): consume the node and return a new
node carrying the subtree; every other field is moved over unchanged. -/
def NestedRoute.child : NestedRoute → RouteList → NestedRoute
  | .mk i segments _ data view methods ssr_mode, c =>
    .mk i segments (some c) data view methods ssr_mode

/-- Example segment matcher consuming a leading `/users`. -/
def usersMatcher : Matcher :=
  ⟨fun p => if p = "/users" then some ⟨"", [], "/users"⟩
            else if p = "/users/42" then some ⟨"/42", [], "/users"⟩
            else none, ["users"]⟩

/-- Example segment matcher consuming `/42` as the param `id`. -/
def idMatcher : Matcher :=
  ⟨fun p => if p = "/42" then some ⟨"", [("id", "42")], "/42"⟩ else none, ["id"]⟩

/-- Example childless route over `idMatcher`. -/
def demoChild : NestedRoute :=
  .mk 7 idMatcher none 0 20 {Method.get, Method.post} (.Static ⟨some 3⟩)

/-- Example route over `usersMatcher` with `demoChild` as its subtree. -/
def demoParent : NestedRoute :=
  .mk 6 usersMatcher (some (.cons demoChild .nil)) 0 10 {Method.get} .outOfOrder

/-- Example childless route over `usersMatcher`. -/
def demoLeaf : NestedRoute :=
  .mk 5 usersMatcher none 0 10 {Method.get} .outOfOrder

/-- Example one-element sibling collection holding `demoChild`. -/
def childList : RouteList := .cons demoChild .nil

/-- The partial match produced by `usersMatcher` on the example path. -/
def demoPm : PartialPathMatch := ⟨"/42", [], "/users"⟩

/-- The match produced by `demoChild` on the example remainder. -/
def demoCm : NestedMatch := .mk ⟨7⟩ "/42" [("id", "42")] none 20

/-- The match produced by `demoParent` on the example path. -/
def demoM : NestedMatch := .mk ⟨6⟩ "/users" [("id", "42")] (some demoCm) 10

/-- The entry generated by `childList`. -/
def demoEntry : GeneratedRouteData :=
  ⟨["id"], .Static ⟨some 3⟩, {Method.get, Method.post}, [3]⟩

theorem optGetD_inv {α : Type} (x : Option α) (d v : α) (h : x.getD d = v) :
    x = some v ∨ (x = none ∧ d = v) := by
  cases x with
  | none => right; simpa using h
  | some a => left; simpa using h

theorem optGetD_fail {α : Type} (x : Option (Option α × String)) (path : String)
    (hx : ∀ y, x = some y → y.1.isSome)
    (h : (x.getD (none, path)).1 = none) : x.getD (none, path) = (none, path) := by
  cases x with
  | none => rfl
  | some y =>
    have hy := hx y rfl
    simp only [Option.getD_some] at h
    rw [h] at hy
    simp at hy

theorem childStep_eq_some (res : Option (RouteMatchId × NestedMatch) × String)
    (inner : Option NestedMatch) (rem2 : String) :
    childStep res = some (inner, rem2) ↔
      ∃ cid cm, res = (some (cid, cm), rem2) ∧ inner = some cm := by
  obtain ⟨o, r⟩ := res
  cases o with
  | none => simp [childStep]
  | some p =>
    obtain ⟨cid0, cm0⟩ := p
    simp [childStep, and_assoc, eq_comm, and_comm]

theorem matchFinish_eq_some (i : Nat) (matched : String)
    (params : List (String × String)) (v : Nat)
    (step : Option NestedMatch × String)
    (out : Option (RouteMatchId × NestedMatch) × String) :
    matchFinish i matched params v step = some out ↔
      (step.2 = "" ∨ step.2 = "/") ∧
      out = (some (RouteMatchId.mk i,
        NestedMatch.mk (RouteMatchId.mk i) matched
          (params ++ (step.1.map NestedMatch.to_params).getD [])
          step.1 v), step.2) := by
  unfold matchFinish
  by_cases h : step.2 = "" ∨ step.2 = "/" <;> simp [h, eq_comm]

theorem match_nested_none_inv (i : Nat) (segs : Matcher)
    (d v : Nat) (ms : Finset Method) (mode : SsrMode) (path : String)
    (id : RouteMatchId) (m : NestedMatch) (rem : String)
    (hs : (NestedRoute.mk i segs none d v ms mode).match_nested path =
      (some (id, m), rem)) :
    ∃ pm, segs.test path = some pm ∧
      id = RouteMatchId.mk i ∧
      m = NestedMatch.mk (RouteMatchId.mk i) pm.matched pm.params none v ∧
      rem = pm.remaining ∧ (rem = "" ∨ rem = "/") := by
  simp only [NestedRoute.match_nested] at hs
  rcases optGetD_inv _ _ _ hs with h1 | ⟨_, h2⟩
  · rw [Option.bind_eq_some] at h1
    obtain ⟨pm, hpm, h2⟩ := h1
    rw [Option.bind_eq_some] at h2
    obtain ⟨step, hstep, hfin⟩ := h2
    have hstep' : step = (none, pm.remaining) := (Option.some.inj hstep).symm
    subst hstep'
    rw [matchFinish_eq_some] at hfin
    obtain ⟨hrem, hout⟩ := hfin
    obtain ⟨hout1, hout2⟩ := Prod.mk.inj hout
    obtain ⟨hid, hm⟩ := Prod.mk.inj (Option.some.inj hout1)
    simp only at hout2 hrem
    refine ⟨pm, hpm, hid, ?_, hout2, ?_⟩
    · rw [hm]; simp
    · rw [hout2]; exact hrem
  · exact absurd h2.symm (by simp)

theorem match_nested_some_inv (i : Nat) (segs : Matcher) (cs : RouteList)
    (d v : Nat) (ms : Finset Method) (mode : SsrMode) (path : String)
    (id : RouteMatchId) (m : NestedMatch) (rem : String)
    (hs : (NestedRoute.mk i segs (some cs) d v ms mode).match_nested path =
      (some (id, m), rem)) :
    ∃ pm cid cm rem2, segs.test path = some pm ∧
      cs.match_nested pm.remaining = (some (cid, cm), rem2) ∧
      id = RouteMatchId.mk i ∧
      m = NestedMatch.mk (RouteMatchId.mk i) pm.matched
            (pm.params ++ cm.params) (some cm) v ∧
      rem = rem2 ∧ (rem2 = "" ∨ rem2 = "/") := by
  simp only [NestedRoute.match_nested] at hs
  rcases optGetD_inv _ _ _ hs with h1 | ⟨_, h2⟩
  · rw [Option.bind_eq_some] at h1
    obtain ⟨pm, hpm, h2⟩ := h1
    rw [Option.bind_eq_some] at h2
    obtain ⟨step, hstep, hfin⟩ := h2
    obtain ⟨stepInner, stepRem⟩ := step
    rw [childStep_eq_some] at hstep
    obtain ⟨cid, cm, hq, hinner⟩ := hstep
    rw [matchFinish_eq_some] at hfin
    obtain ⟨hrem, hout⟩ := hfin
    obtain ⟨hout1, hout2⟩ := Prod.mk.inj hout
    obtain ⟨hid, hm⟩ := Prod.mk.inj (Option.some.inj hout1)
    simp only at hout2 hrem
    refine ⟨pm, cid, cm, stepRem, hpm, hq, hid, ?_, hout2, ?_⟩
    · rw [hm]
      simp only [hinner, Option.map_some', Option.getD_some]
      rfl
    · exact hrem
  · exact absurd h2.symm (by simp)

/-- Shape of every `match_nested` result: either the failure pair with the
original path, or a successful first component. -/
theorem match_nested_shape (r : NestedRoute) (path : String) :
    r.match_nested path = (none, path) ∨ (r.match_nested path).1.isSome := by
  obtain ⟨i, segs, ch, d, v, ms, mode⟩ := r
  rw [NestedRoute.match_nested.eq_1]
  set X := ((segs.test path).bind fun pm =>
      (match ch with
       | none => some (none, pm.remaining)
       | some cs => childStep (cs.match_nested pm.remaining)).bind
        (matchFinish i pm.matched pm.params v)) with hX
  clear_value X
  cases X with
  | none => left; rfl
  | some y =>
    right
    have hy := hX.symm
    rw [Option.bind_eq_some] at hy
    obtain ⟨pm, hpm, hy⟩ := hy
    rw [Option.bind_eq_some] at hy
    obtain ⟨step, hstep, hy⟩ := hy
    rw [matchFinish_eq_some] at hy
    rw [hy.2]
    rfl

/-- C1: for every node with no child and every input path, `match_nested`
succeeds iff the node's segment matcher succeeds on the path and the matcher's
remaining output is empty or exactly a slash; on success the produced match has
`params` equal to the matcher's own extracted params and `child = none`. -/
theorem match_nested_no_child (r : NestedRoute) (path : String)
    (h : r.children = none) :
    ((r.match_nested path).1.isSome ↔
      ∃ pm, r.segments.test path = some pm ∧
        (pm.remaining = "" ∨ pm.remaining = "/"))
    ∧ ∀ id m rem, r.match_nested path = (some (id, m), rem) →
        ∃ pm, r.segments.test path = some pm ∧ m.params = pm.params ∧
          m.child = none := by
  obtain ⟨i, segs, ch, d, v, ms, mode⟩ := r
  simp only [NestedRoute.children] at h
  subst h
  simp only [NestedRoute.match_nested, NestedRoute.segments]
  cases ht : segs.test path with
  | none => simp [ht]
  | some pm =>
    obtain ⟨rem, params, matched⟩ := pm
    by_cases hrem : rem = "" ∨ rem = "/" <;>
      simp [ht, hrem, matchFinish, NestedMatch.params, NestedMatch.child]

/-- C2: for every node with a child on whose path the node's own matcher
succeeds with remainder `pm.remaining`, if the child's `match_nested` on that
remainder succeeds with final remainder `rem2`, the node matches iff `rem2` is
empty or exactly a slash, and on success the params list is the node's own
extracted params followed by the child's, in that order. -/
theorem match_nested_child_success (r : NestedRoute) (cs : RouteList)
    (path : String) (h : r.children = some cs) (pm : PartialPathMatch)
    (hpm : r.segments.test path = some pm)
    (cid : RouteMatchId) (cm : NestedMatch) (rem2 : String)
    (hc : cs.match_nested pm.remaining = (some (cid, cm), rem2)) :
    ((r.match_nested path).1.isSome ↔ (rem2 = "" ∨ rem2 = "/"))
    ∧ ∀ id m rem, r.match_nested path = (some (id, m), rem) →
        m.params = pm.params ++ cm.params := by
  obtain ⟨i, segs, ch, d, v, ms, mode⟩ := r
  simp only [NestedRoute.children] at h
  subst h
  simp only [NestedRoute.segments] at hpm
  by_cases hrem : rem2 = "" ∨ rem2 = "/" <;>
    simp [NestedRoute.match_nested, hpm, hc, childStep, matchFinish, hrem,
      NestedMatch.params, NestedMatch.to_params]

/-- C3: whenever `match_nested` fails — own matcher failure, child failure, or a
final remainder that is neither empty nor a slash — it returns `none` paired
with the original input path unchanged. -/
theorem match_nested_fail_keeps_path (r : NestedRoute) (path : String)
    (h : (r.match_nested path).1 = none) :
    r.match_nested path = (none, path) := by
  rcases match_nested_shape r path with hsh | hsh
  · exact hsh
  · rw [h] at hsh
    exact absurd hsh (by simp)

/-- C8: on every successful `match_nested`, the returned id is this node's own
id (the shallowest node of the fully matched chain), as is the id stored in the
match; the descendant's match is still carried in the `child` field. -/
theorem match_nested_returns_own_id (r : NestedRoute) (path : String)
    (id : RouteMatchId) (m : NestedMatch) (rem : String)
    (hs : r.match_nested path = (some (id, m), rem)) :
    id = RouteMatchId.mk r.id ∧ m.id = RouteMatchId.mk r.id ∧
      ∀ cs pm cid cm rem2, r.children = some cs →
        r.segments.test path = some pm →
        cs.match_nested pm.remaining = (some (cid, cm), rem2) →
        m.child = some cm := by
  obtain ⟨i, segs, ch, d, v, ms, mode⟩ := r
  simp only [NestedRoute.id, NestedRoute.children, NestedRoute.segments]
  cases ch with
  | none =>
    obtain ⟨pm, hpm, hid, hm, hrem, _⟩ :=
      match_nested_none_inv _ _ _ _ _ _ _ _ _ _ hs
    subst hid hm
    refine ⟨rfl, rfl, ?_⟩
    intro cs pm' cid cm rem2 hcs _ _
    exact absurd hcs (by simp)
  | some cs0 =>
    obtain ⟨pm, cid0, cm0, rem20, hpm, hq, hid, hm, hrem, _⟩ :=
      match_nested_some_inv _ _ _ _ _ _ _ _ _ _ _ hs
    subst hid hm
    refine ⟨rfl, rfl, ?_⟩
    intro cs' pm' cid' cm' rem2' hcs' hpm' hq'
    injection hcs' with hcs'
    subst hcs'
    rw [hpm] at hpm'
    injection hpm' with hpm'
    subst hpm'
    rw [hq] at hq'
    injection hq' with h1 h2
    injection h1 with h1
    obtain ⟨h1a, h1b⟩ := Prod.mk.inj h1
    subst h1b
    rfl

/-- C9: on every successful `match_nested` of a node with a child, the match's
`matched` span is exactly the portion consumed by this node's own segment
matcher; the descendant's consumed portion stays in the nested child match. -/
theorem match_nested_matched_own_span (r : NestedRoute) (cs : RouteList)
    (path : String) (h : r.children = some cs)
    (id : RouteMatchId) (m : NestedMatch) (rem : String)
    (hs : r.match_nested path = (some (id, m), rem)) :
    ∃ pm cid cm rem2, r.segments.test path = some pm ∧
      cs.match_nested pm.remaining = (some (cid, cm), rem2) ∧
      m.matched = pm.matched ∧ m.child = some cm := by
  obtain ⟨i, segs, ch, d, v, ms, mode⟩ := r
  simp only [NestedRoute.children] at h
  subst h
  simp only [NestedRoute.segments]
  obtain ⟨pm, cid0, cm0, rem20, hpm, hq, hid, hm, hrem, _⟩ :=
    match_nested_some_inv _ _ _ _ _ _ _ _ _ _ _ hs
  subst hm
  exact ⟨pm, cid0, cm0, rem20, hpm, hq, rfl, rfl⟩

/-- `generate_routes` on a childless node: exactly one entry from the node's own
descriptors. -/
theorem generate_routes_none (i : Nat) (segs : Matcher) (d v : Nat)
    (ms : Finset Method) (mode : SsrMode) :
    (NestedRoute.mk i segs none d v ms mode).generate_routes =
      [⟨segs.path, mode, ms, regenOfMode mode⟩] := by
  rw [NestedRoute.generate_routes.eq_1]

/-- `generate_routes` on a node with a child: one combined entry per child
entry. -/
theorem generate_routes_some (i : Nat) (segs : Matcher) (cs : RouteList)
    (d v : Nat) (ms : Finset Method) (mode : SsrMode) :
    (NestedRoute.mk i segs (some cs) d v ms mode).generate_routes =
      (RouteList.generate_routes cs).map
        (combineEntry segs.path ms mode (regenOfMode mode)) := by
  rw [NestedRoute.generate_routes.eq_2]

theorem generate_routes_list_nil : RouteList.nil.generate_routes = [] := by
  rw [RouteList.generate_routes.eq_1]

theorem generate_routes_list_cons (r : NestedRoute) (rest : RouteList) :
    (RouteList.cons r rest).generate_routes =
      r.generate_routes ++ rest.generate_routes := by
  rw [RouteList.generate_routes.eq_2]

mutual

theorem generate_routes_length (r : NestedRoute) :
    (r.generate_routes).length = r.leafCount := by
  obtain ⟨i, segs, ch, d, v, ms, mode⟩ := r
  cases ch with
  | none =>
    rw [generate_routes_none, NestedRoute.leafCount.eq_1]
    rfl
  | some cs =>
    rw [generate_routes_some, List.length_map, NestedRoute.leafCount.eq_2,
      generate_routes_list_length cs]

theorem generate_routes_list_length (cs : RouteList) :
    (cs.generate_routes).length = cs.leafCount := by
  cases cs with
  | nil => rw [generate_routes_list_nil, RouteList.leafCount.eq_1]; rfl
  | cons r rest =>
    rw [generate_routes_list_cons, List.length_append,
      RouteList.leafCount.eq_2, generate_routes_length r,
      generate_routes_list_length rest]

end

theorem combineEntry_segments (sr : List PathSegment) (ms : Finset Method)
    (mode : SsrMode) (rg : List Regen) (c : GeneratedRouteData) :
    (combineEntry sr ms mode rg c).segments = sr ++ c.segments := by
  unfold combineEntry
  by_cases h : SsrMode.gtb c.ssr_mode mode <;> simp [h]

theorem combineEntry_methods (sr : List PathSegment) (ms : Finset Method)
    (mode : SsrMode) (rg : List Regen) (c : GeneratedRouteData) :
    (combineEntry sr ms mode rg c).methods = ms ∪ c.methods := by
  unfold combineEntry
  by_cases h : SsrMode.gtb c.ssr_mode mode <;> simp [h]

theorem combineEntry_regenerate (sr : List PathSegment) (ms : Finset Method)
    (mode : SsrMode) (rg : List Regen) (c : GeneratedRouteData) :
    (combineEntry sr ms mode rg c).regenerate = rg ++ c.regenerate := by
  unfold combineEntry
  by_cases h : SsrMode.gtb c.ssr_mode mode <;> simp [h]

theorem combineEntry_ssr (sr : List PathSegment) (ms : Finset Method)
    (mode : SsrMode) (rg : List Regen) (c : GeneratedRouteData) :
    (combineEntry sr ms mode rg c).ssr_mode =
      if SsrMode.gtb c.ssr_mode mode then c.ssr_mode else mode := by
  unfold combineEntry
  by_cases h : SsrMode.gtb c.ssr_mode mode <;> simp [h]

/-- C4: in `generate_routes`, for every parent with a child and every entry
produced by the child, the combined entry is among the parent's entries, its SSR
mode is the child entry's mode when that is strictly greater than the parent's
and otherwise the parent's own stored mode, and it is always exactly one of the
two. -/
theorem generate_routes_ssr_merge (r : NestedRoute) (cs : RouteList)
    (h : r.children = some cs) (e : GeneratedRouteData)
    (he : e ∈ cs.generate_routes) :
    combineEntry r.segments.path r.methods r.ssr_mode
        (regenOfMode r.ssr_mode) e ∈ r.generate_routes
    ∧ (combineEntry r.segments.path r.methods r.ssr_mode
        (regenOfMode r.ssr_mode) e).ssr_mode =
        (if SsrMode.gtb e.ssr_mode r.ssr_mode then e.ssr_mode else r.ssr_mode)
    ∧ ((combineEntry r.segments.path r.methods r.ssr_mode
        (regenOfMode r.ssr_mode) e).ssr_mode = e.ssr_mode ∨
       (combineEntry r.segments.path r.methods r.ssr_mode
        (regenOfMode r.ssr_mode) e).ssr_mode = r.ssr_mode) := by
  obtain ⟨i, segs, ch, d, v, ms, mode⟩ := r
  simp only [NestedRoute.children] at h
  subst h
  simp only [NestedRoute.segments, NestedRoute.methods, NestedRoute.ssr_mode]
  refine ⟨?_, combineEntry_ssr _ _ _ _ _, ?_⟩
  · rw [generate_routes_some]
    exact List.mem_map_of_mem _ he
  · rw [combineEntry_ssr]
    by_cases hgt : SsrMode.gtb e.ssr_mode mode <;> simp [hgt]

/-- C6: in `generate_routes`, for every parent with a child and every entry
produced by the child, the combined entry's methods are the set union of the
parent's and the child entry's methods (order-independent, duplicates collapse),
and its regenerate list is the parent's regeneration list followed by the child
entry's, concatenated without deduplication. -/
theorem generate_routes_methods_merge (r : NestedRoute) (cs : RouteList)
    (h : r.children = some cs) (e : GeneratedRouteData)
    (he : e ∈ cs.generate_routes) :
    combineEntry r.segments.path r.methods r.ssr_mode
        (regenOfMode r.ssr_mode) e ∈ r.generate_routes
    ∧ (combineEntry r.segments.path r.methods r.ssr_mode
        (regenOfMode r.ssr_mode) e).methods = r.methods ∪ e.methods
    ∧ (∀ mth, mth ∈ (combineEntry r.segments.path r.methods r.ssr_mode
        (regenOfMode r.ssr_mode) e).methods ↔
          mth ∈ r.methods ∨ mth ∈ e.methods)
    ∧ (combineEntry r.segments.path r.methods r.ssr_mode
        (regenOfMode r.ssr_mode) e).regenerate =
        regenOfMode r.ssr_mode ++ e.regenerate := by
  obtain ⟨i, segs, ch, d, v, ms, mode⟩ := r
  simp only [NestedRoute.children] at h
  subst h
  simp only [NestedRoute.segments, NestedRoute.methods, NestedRoute.ssr_mode]
  refine ⟨?_, combineEntry_methods _ _ _ _ _, ?_,
    combineEntry_regenerate _ _ _ _ _⟩
  · rw [generate_routes_some]
    exact List.mem_map_of_mem _ he
  · intro mth
    rw [combineEntry_methods]
    exact Finset.mem_union

/-- C5: `generate_routes` on a childless node yields exactly one entry with the
node's own descriptors, SSR mode, methods, and a regeneration list that is
non-empty only for the Static variant carrying a descriptor; on any node it
yields as many entries as the subtree has leaf descendants, each entry's
segments beginning with the node's own segment descriptors. -/
theorem generate_routes_base_and_count (r : NestedRoute) :
    (r.children = none →
       r.generate_routes =
         [⟨r.segments.path, r.ssr_mode, r.methods, regenOfMode r.ssr_mode⟩] ∧
       (regenOfMode r.ssr_mode ≠ [] ↔
         ∃ sr reg, r.ssr_mode = SsrMode.Static sr ∧ sr.regenerate = some reg))
    ∧ (r.generate_routes).length = r.leafCount
    ∧ ∀ e ∈ r.generate_routes, ∃ t, e.segments = r.segments.path ++ t := by
  obtain ⟨i, segs, ch, d, v, ms, mode⟩ := r
  simp only [NestedRoute.children, NestedRoute.segments, NestedRoute.methods,
    NestedRoute.ssr_mode]
  refine ⟨?_, generate_routes_length _, ?_⟩
  · intro h
    subst h
    refine ⟨generate_routes_none _ _ _ _ _ _, ?_⟩
    cases mode with
    | Static data =>
      cases hdata : data.regenerate with
      | none => simp [regenOfMode, hdata]
      | some reg => simp [regenOfMode, hdata]
    | outOfOrder => simp [regenOfMode]
    | partiallyBlocked => simp [regenOfMode]
    | inOrder => simp [regenOfMode]
    | async => simp [regenOfMode]
  · intro e he
    cases ch with
    | none =>
      rw [generate_routes_none] at he
      simp at he
      subst he
      exact ⟨[], by simp⟩
    | some cs =>
      rw [generate_routes_some] at he
      rw [List.mem_map] at he
      obtain ⟨c, _, hc⟩ := he
      subst hc
      exact ⟨c.segments, combineEntry_segments _ _ _ _ _⟩

theorem constructMany_ids (s m : Nat) :
    (constructMany s m).map NestedRoute.id =
      (List.range m).map (fun k => (s + k) % 65536) := by
  induction m generalizing s with
  | zero => rfl
  | succ m ih =>
    rw [List.range_succ_eq_map]
    simp only [constructMany, NestedRoute.new, fetchAdd, List.map_cons,
      List.map_map, NestedRoute.id, ih]
    refine congrArg₂ List.cons (by simp) (List.map_congr_left ?_)
    intro a ha
    simp only [Function.comp_apply]
    omega

/-- C7 (amended): constructing up to 2^16 route nodes in sequence, each calling
the u16 allocator once starting from its initial value 1, yields pairwise
distinct ids; beyond 2^16 constructions the wrapping counter repeats. -/
theorem constructMany_ids_distinct (M : Nat) (h : M ≤ 65536) :
    ((constructMany ROUTE_ID_init M).map NestedRoute.id).Nodup := by
  have h1 : ROUTE_ID_init = 1 := rfl
  rw [h1, constructMany_ids]
  refine List.Nodup.map_on ?_ (List.nodup_range M)
  intro x hx y hy hxy
  rw [List.mem_range] at hx hy
  omega

/-- C7 counterexample: after 65537 constructions the ids are not pairwise
distinct — the `AtomicU16` counter wraps, so the 1st and the 65537th node both
receive id 1. -/
theorem constructMany_ids_collide :
    ¬ ((constructMany ROUTE_ID_init 65537).map NestedRoute.id).Nodup := by
  intro hnd
  have h1 : ROUTE_ID_init = 1 := rfl
  rw [h1, constructMany_ids] at hnd
  have hinj := List.inj_on_of_nodup_map hnd
  have h0 : (0 : Nat) ∈ List.range 65537 := List.mem_range.mpr (by norm_num)
  have h2 : (65536 : Nat) ∈ List.range 65537 := List.mem_range.mpr (by norm_num)
  have h3 : (0 : Nat) = 65536 := hinj h0 h2 (by norm_num)
  omega

/-- C10: on a childless node, the `child` builder only sets the children field
to the given subtree; id, segments, data, view, methods, and ssr_mode of the
result all equal those of the original node. -/
theorem child_keeps_fields (r : NestedRoute) (cs : RouteList)
    (h : r.children = none) :
    (r.child cs).children = some cs ∧
    (r.child cs).id = r.id ∧ (r.child cs).segments = r.segments ∧
    (r.child cs).data = r.data ∧ (r.child cs).view = r.view ∧
    (r.child cs).methods = r.methods ∧ (r.child cs).ssr_mode = r.ssr_mode := by
  obtain ⟨i, segs, ch, d, v, ms, mode⟩ := r
  simp [NestedRoute.child, NestedRoute.children, NestedRoute.id,
    NestedRoute.segments, NestedRoute.data, NestedRoute.view,
    NestedRoute.methods, NestedRoute.ssr_mode]

/-- Witness for C1 at the childless example route and path `/users`. -/
theorem match_nested_no_child_witness :
    demoLeaf.children = none ∧
    (((demoLeaf.match_nested "/users").1.isSome ↔
      ∃ pm, demoLeaf.segments.test "/users" = some pm ∧
        (pm.remaining = "" ∨ pm.remaining = "/"))
    ∧ ∀ id m rem, demoLeaf.match_nested "/users" = (some (id, m), rem) →
        ∃ pm, demoLeaf.segments.test "/users" = some pm ∧
          m.params = pm.params ∧ m.child = none) :=
  ⟨rfl, match_nested_no_child demoLeaf "/users" rfl⟩

/-- Witness for C2 at the example parent route and path `/users/42`. -/
theorem match_nested_child_success_witness :
    demoParent.children = some childList ∧
    demoParent.segments.test "/users/42" = some demoPm ∧
    childList.match_nested demoPm.remaining = (some (⟨7⟩, demoCm), "") ∧
    (((demoParent.match_nested "/users/42").1.isSome ↔
        (("" : String) = "" ∨ ("" : String) = "/"))
    ∧ ∀ id m rem, demoParent.match_nested "/users/42" = (some (id, m), rem) →
        m.params = demoPm.params ++ demoCm.params) :=
  ⟨rfl, rfl, rfl, match_nested_child_success demoParent childList "/users/42"
    rfl demoPm rfl ⟨7⟩ demoCm "" rfl⟩

/-- Witness for C3 at the childless example route and the unmatched path. -/
theorem match_nested_fail_keeps_path_witness :
    (demoLeaf.match_nested "/nope").1 = none ∧
    demoLeaf.match_nested "/nope" = (none, "/nope") :=
  ⟨rfl, match_nested_fail_keeps_path demoLeaf "/nope" rfl⟩

/-- Witness for C8 at the example parent route and path `/users/42`. -/
theorem match_nested_returns_own_id_witness :
    demoParent.match_nested "/users/42" = (some (⟨6⟩, demoM), "") ∧
    ((⟨6⟩ : RouteMatchId) = RouteMatchId.mk demoParent.id ∧
     demoM.id = RouteMatchId.mk demoParent.id ∧
     ∀ cs pm cid cm rem2, demoParent.children = some cs →
       demoParent.segments.test "/users/42" = some pm →
       cs.match_nested pm.remaining = (some (cid, cm), rem2) →
       demoM.child = some cm) :=
  ⟨rfl, match_nested_returns_own_id demoParent "/users/42" ⟨6⟩ demoM "" rfl⟩

/-- Witness for C9 at the example parent route and path `/users/42`. -/
theorem match_nested_matched_own_span_witness :
    demoParent.children = some childList ∧
    demoParent.match_nested "/users/42" = (some (⟨6⟩, demoM), "") ∧
    (∃ pm cid cm rem2, demoParent.segments.test "/users/42" = some pm ∧
      childList.match_nested pm.remaining = (some (cid, cm), rem2) ∧
      demoM.matched = pm.matched ∧ demoM.child = some cm) :=
  ⟨rfl, rfl, match_nested_matched_own_span demoParent childList "/users/42"
    rfl ⟨6⟩ demoM "" rfl⟩

/-- Witness for C4 at the example parent route and the child's entry. -/
theorem generate_routes_ssr_merge_witness :
    demoParent.children = some childList ∧
    demoEntry ∈ childList.generate_routes ∧
    (combineEntry demoParent.segments.path demoParent.methods
        demoParent.ssr_mode (regenOfMode demoParent.ssr_mode) demoEntry ∈
          demoParent.generate_routes
    ∧ (combineEntry demoParent.segments.path demoParent.methods
        demoParent.ssr_mode (regenOfMode demoParent.ssr_mode)
          demoEntry).ssr_mode =
        (if SsrMode.gtb demoEntry.ssr_mode demoParent.ssr_mode then
          demoEntry.ssr_mode else demoParent.ssr_mode)
    ∧ ((combineEntry demoParent.segments.path demoParent.methods
        demoParent.ssr_mode (regenOfMode demoParent.ssr_mode)
          demoEntry).ssr_mode = demoEntry.ssr_mode ∨
       (combineEntry demoParent.segments.path demoParent.methods
        demoParent.ssr_mode (regenOfMode demoParent.ssr_mode)
          demoEntry).ssr_mode = demoParent.ssr_mode)) :=
  ⟨rfl, by decide,
    generate_routes_ssr_merge demoParent childList rfl demoEntry (by decide)⟩

/-- Witness for C5 at the childless example route. -/
theorem generate_routes_base_and_count_witness :
    demoLeaf.children = none ∧
    demoLeaf.generate_routes =
      [⟨demoLeaf.segments.path, demoLeaf.ssr_mode, demoLeaf.methods,
        regenOfMode demoLeaf.ssr_mode⟩] ∧
    (demoLeaf.generate_routes).length = demoLeaf.leafCount :=
  ⟨rfl, ((generate_routes_base_and_count demoLeaf).1 rfl).1,
    (generate_routes_base_and_count demoLeaf).2.1⟩

/-- Witness for C6 at the example parent route and the child's entry. -/
theorem generate_routes_methods_merge_witness :
    demoParent.children = some childList ∧
    demoEntry ∈ childList.generate_routes ∧
    (combineEntry demoParent.segments.path demoParent.methods
        demoParent.ssr_mode (regenOfMode demoParent.ssr_mode) demoEntry ∈
          demoParent.generate_routes
    ∧ (combineEntry demoParent.segments.path demoParent.methods
        demoParent.ssr_mode (regenOfMode demoParent.ssr_mode)
          demoEntry).methods = demoParent.methods ∪ demoEntry.methods
    ∧ (∀ mth, mth ∈ (combineEntry demoParent.segments.path demoParent.methods
        demoParent.ssr_mode (regenOfMode demoParent.ssr_mode)
          demoEntry).methods ↔
          mth ∈ demoParent.methods ∨ mth ∈ demoEntry.methods)
    ∧ (combineEntry demoParent.segments.path demoParent.methods
        demoParent.ssr_mode (regenOfMode demoParent.ssr_mode)
          demoEntry).regenerate =
        regenOfMode demoParent.ssr_mode ++ demoEntry.regenerate) :=
  ⟨rfl, by decide,
    generate_routes_methods_merge demoParent childList rfl demoEntry (by decide)⟩

/-- Witness for C7 (amended) at three constructions. -/
theorem constructMany_ids_distinct_witness :
    3 ≤ 65536 ∧ ((constructMany ROUTE_ID_init 3).map NestedRoute.id).Nodup :=
  ⟨by decide, constructMany_ids_distinct 3 (by decide)⟩

/-- Witness for C10 at the childless example route. -/
theorem child_keeps_fields_witness :
    demoLeaf.children = none ∧
    ((demoLeaf.child childList).children = some childList ∧
    (demoLeaf.child childList).id = demoLeaf.id ∧
    (demoLeaf.child childList).segments = demoLeaf.segments ∧
    (demoLeaf.child childList).data = demoLeaf.data ∧
    (demoLeaf.child childList).view = demoLeaf.view ∧
    (demoLeaf.child childList).methods = demoLeaf.methods ∧
    (demoLeaf.child childList).ssr_mode = demoLeaf.ssr_mode) :=
  ⟨rfl, child_keeps_fields demoLeaf childList rfl⟩
